import Mathlib

/-!
# Audio-ingestion pipeline of the voice-to-text note app

A shallow embedding of `handlers/transcribe.go` and `storage/db.go`.

* A Go `[]byte` is a `List Nat` (every byte is a natural number below 256).
* A Go run-time panic (index out of range) is the `panic` outcome of `Go`.
* A Go `error` is its message text.
-/

namespace VoiceToText

/-! ## Go run-time model -/

/-- Run-time panics the embedded code could raise. -/
inductive GoPanic where
  | indexOutOfRange (index length : Nat)
  deriving DecidableEq, Repr

/-- Outcome of evaluating a Go expression: a value, or a panic. -/
inductive Go (α : Type) where
  | val (a : α)
  | panic (p : GoPanic)
  deriving DecidableEq, Repr

/-- Sequencing of Go evaluations: a panic aborts everything after it. -/
def Go.bind {α β : Type} (x : Go α) (f : α → Go β) : Go β :=
  match x with
  | .val a => f a
  | .panic p => .panic p

/-- Go index expression `xs[i]`: panics when `i` is out of range. -/
def index {α : Type} (xs : List α) (i : Nat) : Go α :=
  match xs[i]? with
  | some x => .val x
  | none => .panic (.indexOutOfRange i xs.length)

/-- Go `a && b`: `b` is evaluated only when `a` is true. -/
def goAnd (a b : Go Bool) : Go Bool :=
  Go.bind a fun x => if x then b else .val false

/-- Go `a || b`: `b` is evaluated only when `a` is false. -/
def goOr (a b : Go Bool) : Go Bool :=
  Go.bind a fun x => if x then .val true else b

/-- Go comparison `data[i] == v`. -/
def byteIs (data : List Nat) (i v : Nat) : Go Bool :=
  Go.bind (index data i) fun b => .val (b == v)

/-- Go comparison `(data[i] & mask) == v`. -/
def maskedByteIs (data : List Nat) (i mask v : Nat) : Go Bool :=
  Go.bind (index data i) fun b => .val ((b &&& mask) == v)

/-- A well-formed Go byte slice: every element fits in eight bits. -/
def isByteSlice (data : List Nat) : Prop := ∀ b ∈ data, b < 256

instance (data : List Nat) : Decidable (isByteSlice data) := by
  unfold isByteSlice; infer_instance

/-! ## `detectAudioFormat` (transcribe.go, lines 31-55) -/

/-- The function `detectAudioFormat` of transcribe.go. -/
def detectAudioFormat (data : List Nat) : Go String :=
  -- Check file signatures (magic numbers)
  if data.length < 12 then .val "unknown" else
  -- WebM starts with 0x1A 0x45 0xDF 0xA3
  Go.bind (goAnd (goAnd (goAnd (byteIs data 0 0x1A) (byteIs data 1 0x45))
      (byteIs data 2 0xDF)) (byteIs data 3 0xA3)) fun isWebm =>
  if isWebm then .val "webm" else
  -- MP3 starts with ID3 or 0xFF 0xFB
  Go.bind (goOr
      (goAnd (goAnd (byteIs data 0 0x49) (byteIs data 1 0x44)) (byteIs data 2 0x33))
      (goAnd (byteIs data 0 0xFF) (maskedByteIs data 1 0xFB 0xFB))) fun isMp3 =>
  if isMp3 then .val "mp3" else
  -- WAV starts with RIFF....WAVE
  Go.bind (goAnd (goAnd (goAnd (goAnd (goAnd (goAnd (goAnd
      (byteIs data 0 0x52) (byteIs data 1 0x49)) (byteIs data 2 0x46)) (byteIs data 3 0x46))
      (byteIs data 8 0x57)) (byteIs data 9 0x41)) (byteIs data 10 0x56))
      (byteIs data 11 0x45)) fun isWav =>
  if isWav then .val "wav" else
  .val "unknown"

/-- The bytes `pat` stand in `data` from offset `off` on. -/
def hasBytesAt (data : List Nat) (off : Nat) (pat : List Nat) : Prop :=
  (data.drop off).take pat.length = pat

instance (data : List Nat) (off : Nat) (pat : List Nat) : Decidable (hasBytesAt data off pat) := by
  unfold hasBytesAt; infer_instance

/-! ## The world outside the program -/

/-- Contents of the filesystem: the bytes stored under each path, if any. -/
abbrev FS := String → Option (List Nat)

/-- The filesystem after `path` was created or overwritten with `data`. -/
def FS.write (fs : FS) (path : String) (data : List Nat) : FS :=
  fun p => if p = path then some data else fs p

/-- The filesystem after `path` was unlinked. -/
def FS.remove (fs : FS) (path : String) : FS :=
  fun p => if p = path then none else fs p

/-- An HTTP request sent by the program. -/
structure HttpRequest where
  method : String
  url : String
  header : List (String × String)
  body : List Nat
  deriving DecidableEq, Repr

/-- Calls that leave the process, in the order they were made. -/
inductive Event where
  | log (msg : String)
  | writeFile (path : String) (data : List Nat)
  | remove (path : String)
  | run (name : String) (args : List String)
  | readFile (path : String)
  | httpDo (req : HttpRequest)
  | dbExec (query : String) (args : List String)
  deriving DecidableEq, Repr

/-- State of the world around one run: the filesystem, the rows of table `notes` as
(filename, transcript) pairs (the columns id and created_at are filled in by the database), and
the trace of outside calls made so far. -/
structure World where
  fs : FS
  notes : List (String × String)
  events : List Event

/-- What a finished child process leaves behind: the error of `cmd.Run()` (none on exit
status 0), the captured standard error text, and the filesystem as the process left it. -/
structure CmdResult where
  err : Option String
  stderr : String
  fs : FS

/-- An HTTP response as the client sees it: `body` is the outcome of `io.ReadAll(resp.Body)`,
`headerText` the `%v` rendering of the header map. -/
structure HttpResponse where
  statusCode : Nat
  headerText : String
  body : List Nat × Option String

/-- A point in time as `time.Now()` reports it: seconds and nanoseconds since the Unix epoch,
and the offset (seconds east of UTC) of the local zone at that instant. -/
structure Time where
  sec : Int
  nsec : Nat
  offset : Int
  deriving DecidableEq, Repr

/-- The decoded response of the transcription service (the anonymous struct `result` of
`sendToDeepgram`); `F` stands for `float64`, whose values are only stored and printed. -/
structure Alternative (F : Type) where
  transcript : String
  confidence : F

structure Channel (F : Type) where
  alternatives : List (Alternative F)

structure Results (F : Type) where
  channels : List (Channel F)

structure DeepgramResult (F : Type) where
  results : Results F

/-- Behaviour of the operating system, the network, the database and the Go library that the
program relies on and does not determine. Each answer may depend on the whole world state. -/
structure Env (F : Type) where
  /-- `os.TempDir()`. -/
  tempDir : String
  /-- `filepath.Join` of a directory and a file name. -/
  filepathJoin : String → String → String
  /-- Error of `os.WriteFile` for this path and content, none when the write succeeds. -/
  writeFileErr : World → String → List Nat → Option String
  /-- Effect of running a command to completion. -/
  cmdRun : World → String → List String → CmdResult
  /-- Error of `os.ReadFile` on a file that exists, none when the read succeeds. -/
  readFileErr : World → String → Option String
  /-- Error of `os.Remove` for this path, none when the removal succeeds. -/
  removeErr : World → String → Option String
  /-- Error of `http.NewRequest`. -/
  newRequestErr : String → String → Option String
  /-- Outcome of `client.Do`: a response, or the transport error. -/
  clientDo : World → HttpRequest → HttpResponse × Option String
  /-- `json.Unmarshal` into the `result` struct. -/
  jsonUnmarshal : List Nat → DeepgramResult F × Option String
  /-- Rendering of a `float64` under the verb `%f`. -/
  formatFloat : F → String
  /-- Error of `DB.Exec`, none when the statement succeeds. -/
  dbExecErr : World → String → List String → Option String
  /-- `time.Now()`. -/
  now : World → Time

/-- Go conversion `string(b)`: one character per byte. -/
def goString (b : List Nat) : String := String.mk (b.map Char.ofNat)

/-- `log.Printf` with the message already formatted. -/
def logPrintf (msg : String) (w : World) : World :=
  { w with events := w.events ++ [.log msg] }

/-- `os.WriteFile(path, data, 0644)`: on success the file holds `data`; on failure the
filesystem is left as it was. -/
def osWriteFile {F : Type} (env : Env F) (path : String) (data : List Nat) (w : World) :
    Option String × World :=
  match env.writeFileErr w path data with
  | some err => (some err, { w with events := w.events ++ [.writeFile path data] })
  | none => (none, { w with fs := w.fs.write path data,
                            events := w.events ++ [.writeFile path data] })

/-- `os.Remove(path)` with its result discarded, as the deferred calls use it: when the
removal succeeds nothing is stored under `path` afterwards; when it fails the filesystem is
left as it was and nobody learns of the error. -/
def osRemove {F : Type} (env : Env F) (path : String) (w : World) : World :=
  match env.removeErr w path with
  | some _ => { w with events := w.events ++ [.remove path] }
  | none => { w with fs := w.fs.remove path, events := w.events ++ [.remove path] }

/-- `os.ReadFile(path)`. -/
def osReadFile {F : Type} (env : Env F) (path : String) (w : World) :
    (List Nat × Option String) × World :=
  let w1 : World := { w with events := w.events ++ [.readFile path] }
  match w.fs path with
  | none => (([], some ("open " ++ path ++ ": no such file or directory")), w1)
  | some data =>
    match env.readFileErr w path with
    | some err => (([], some err), w1)
    | none => ((data, none), w1)

/-- `exec.Command(name, args...)` followed by `cmd.Run()` with standard error captured. -/
def cmdRun {F : Type} (env : Env F) (name : String) (args : List String) (w : World) :
    CmdResult × World :=
  let r := env.cmdRun w name args
  (r, { w with fs := r.fs, events := w.events ++ [.run name args] })

/-! ## `saveFile` and `convertAudioToWav` (transcribe.go, lines 26-29 and 57-105) -/

/-- The function `saveFile` of transcribe.go. -/
def saveFile {F : Type} (env : Env F) (data : List Nat) (filename : String) (w : World) :
    Option String × World :=
  let path := env.filepathJoin "recordings" filename
  osWriteFile env path data w

/-- The function `convertAudioToWav` of transcribe.go. The result is the pair
(bytes, error) that the Go function returns, with the world it leaves. -/
def convertAudioToWav {F : Type} (env : Env F) (audioData : List Nat) (w : World) :
    Go ((List Nat × Option String) × World) :=
  Go.bind (detectAudioFormat audioData) fun format =>
  let w := logPrintf ("Detected audio format: " ++ format) w
  -- If it's already WAV and meets our requirements, return as-is
  if format = "wav" then .val ((audioData, none), w) else
  -- Create temporary files for input and output
  let tempDir := env.tempDir
  let inputPath := env.filepathJoin tempDir ("input." ++ format)
  let outputPath := env.filepathJoin tempDir "output.wav"
  -- Write audio data to temp file
  match osWriteFile env inputPath audioData w with
  | (some err, w) => .val (([], some ("failed to write temp input file: " ++ err)), w)
  | (none, w) =>
    -- defer os.Remove(inputPath); defer os.Remove(outputPath): run last-in first-out at return
    let deferred : World → World := fun w => osRemove env inputPath (osRemove env outputPath w)
    -- Convert to WAV using system ffmpeg with high quality settings
    match cmdRun env "ffmpeg"
        ["-i", inputPath, "-acodec", "pcm_s24le", "-ac", "2", "-ar", "48000",
         "-af", "highpass=f=50,lowpass=f=20000", "-y", outputPath] w with
    | (r, w) =>
      match r.err with
      | some err =>
        .val (([], some ("ffmpeg conversion failed: " ++ err ++ ", stderr: " ++ r.stderr)),
          deferred w)
      | none =>
        -- Read the converted WAV file
        match osReadFile env outputPath w with
        | ((_, some err), w) =>
          .val (([], some ("failed to read converted wav file: " ++ err)), deferred w)
        | ((wavData, none), w) =>
          let w := logPrintf ("Converted audio size: " ++ toString wavData.length ++ " bytes") w
          .val ((wavData, none), deferred w)

/-! ## `sendToDeepgram` (transcribe.go, lines 184-246) -/

/-- The constant `deepgramAPIKey` of transcribe.go. -/
def deepgramAPIKey : String := ""

/-- The request that `sendToDeepgram` builds for the bytes `wav`. -/
def deepgramRequest (wav : List Nat) : HttpRequest :=
  { method := "POST",
    url := "https://api.deepgram.com/v1/listen?language=en-US&model=general&tier=enhanced",
    header := [("Authorization", "Token " ++ deepgramAPIKey), ("Content-Type", "audio/wav")],
    body := wav }

/-- The error text of `sendToDeepgram` for a response without results. -/
def noResultsError : String := "no transcription results found"

/-- The error text of `sendToDeepgram` for an empty transcript, given the rendered confidence. -/
def emptyTranscriptError (confidence : String) : String :=
  "empty transcript received (confidence: " ++ confidence ++ ")"

/-- The call `client.Do(req)`, recorded in the trace. -/
def clientDo {F : Type} (env : Env F) (req : HttpRequest) (w : World) :
    (HttpResponse × Option String) × World :=
  (env.clientDo w req, { w with events := w.events ++ [.httpDo req] })

/-- The function `sendToDeepgram` of transcribe.go. The result is the pair (transcript, error)
that the Go function returns, with the world it leaves. -/
def sendToDeepgram {F : Type} (env : Env F) (wav : List Nat) (w : World) :
    Go ((String × Option String) × World) :=
  let req := deepgramRequest wav
  match env.newRequestErr req.method req.url with
  | some err => .val (("", some err), w)
  | none =>
  let w := logPrintf ("Sending WAV audio of size: " ++ toString wav.length ++ " bytes") w
  match clientDo env req w with
  | ((_, some err), w) => .val (("", some ("Deepgram request failed: " ++ err)), w)
  | ((resp, none), w) =>
    -- Read and log the raw response
    match resp.body with
    | (_, some err) => .val (("", some ("failed to read response body: " ++ err)), w)
    | (respBody, none) =>
      -- Log full response for debugging
      let w := logPrintf ("Response Status: " ++ toString resp.statusCode) w
      let w := logPrintf ("Response Headers: " ++ resp.headerText) w
      let w := logPrintf ("Deepgram Response: " ++ goString respBody) w
      -- Parse response
      match env.jsonUnmarshal respBody with
      | (_, some err) => .val (("", some ("failed to decode response: " ++ err)), w)
      | (result, none) =>
        Go.bind (goOr (.val (result.results.channels.length == 0))
            (Go.bind (index result.results.channels 0) fun c =>
              .val (c.alternatives.length == 0))) fun noResults =>
        if noResults then .val (("", some noResultsError), w) else
        Go.bind (index result.results.channels 0) fun c =>
        Go.bind (index c.alternatives 0) fun a =>
        let transcript := a.transcript
        Go.bind (index result.results.channels 0) fun c =>
        Go.bind (index c.alternatives 0) fun a =>
        let confidence := a.confidence
        let w := logPrintf ("Transcript confidence: " ++ env.formatFloat confidence) w
        if transcript = "" then
          .val (("", some (emptyTranscriptError (env.formatFloat confidence))), w)
        else
          .val ((transcript, none), w)

/-! ## `storage.SaveNote` (db.go, lines 33-36) -/

/-- The function `SaveNote` of package storage. -/
def storage.SaveNote {F : Type} (env : Env F) (filename transcript : String) (w : World) :
    Option String × World :=
  let query := "INSERT INTO notes (filename, transcript) VALUES (?, ?)"
  let w1 : World := { w with events := w.events ++ [.dbExec query [filename, transcript]] }
  match env.dbExecErr w query [filename, transcript] with
  | some err => (some err, w1)
  | none => (none, { w1 with notes := w1.notes ++ [(filename, transcript)] })

/-! ## Timestamps: `time.Now().Format("20060102-150405")` -/

/-- Proleptic Gregorian (year, month, day) of the day `z` days after 1970-01-01. -/
def civilFromDays (z : Int) : Int × Int × Int :=
  let z := z + 719468
  let era := z / 146097
  let doe := z % 146097
  let yoe := (doe - doe / 1460 + doe / 36524 - doe / 146096) / 365
  let doy := doe - (365 * yoe + yoe / 4 - yoe / 100)
  let mp := (5 * doy + 2) / 153
  let d := doy - (153 * mp + 2) / 5 + 1
  let m := if mp < 10 then mp + 3 else mp - 9
  let y := yoe + era * 400
  (if m ≤ 2 then y + 1 else y, m, d)

/-- Decimal rendering of `x`, zero-padded to `width` digits, as the time formatter does. -/
def appendInt (x : Int) (width : Nat) : String :=
  let digits := toString x.natAbs
  (if x < 0 then "-" else "") ++ String.mk (List.replicate (width - digits.length) '0') ++ digits

/-- The value of `t.Format("20060102-150405")`: local date and time of day, to the second. -/
def formatTimestamp (t : Time) : String :=
  let loc := t.sec + t.offset
  let (year, month, day) := civilFromDays (loc / 86400)
  let secOfDay := loc % 86400
  appendInt year 4 ++ appendInt month 2 ++ appendInt day 2 ++ "-" ++
    appendInt (secOfDay / 3600) 2 ++ appendInt (secOfDay % 3600 / 60) 2 ++
    appendInt (secOfDay % 60) 2

/-! ## `HandleTranscription` (transcribe.go, lines 107-182) -/

/-- What was written to the response body. -/
inductive BodyPart where
  | text (s : String)
  | json (fields : List (String × String))
  deriving DecidableEq, Repr

/-- State of an `http.ResponseWriter`: the header map, the status line once written, and the
body written so far. -/
structure ResponseWriter where
  header : List (String × String)
  status : Option Nat
  body : List BodyPart
  deriving DecidableEq, Repr

/-- `w.Header().Set(key, value)`. -/
def ResponseWriter.setHeader (rw : ResponseWriter) (key value : String) : ResponseWriter :=
  { rw with header := (rw.header.filter fun kv => kv.1 != key) ++ [(key, value)] }

/-- `w.WriteHeader(code)`: only the first call sets the status. -/
def ResponseWriter.writeHeader (rw : ResponseWriter) (code : Nat) : ResponseWriter :=
  match rw.status with
  | none => { rw with status := some code }
  | some _ => rw

/-- `w.Write`: writes status 200 first when no status was written yet. -/
def ResponseWriter.write (rw : ResponseWriter) (part : BodyPart) : ResponseWriter :=
  let rw := rw.writeHeader 200
  { rw with body := rw.body ++ [part] }

/-- `http.Error(w, error, code)`. -/
def httpError (rw : ResponseWriter) (error : String) (code : Nat) : ResponseWriter :=
  let rw := { rw with header := rw.header.filter fun kv => kv.1 != "Content-Length" }
  let rw := rw.setHeader "Content-Type" "text/plain; charset=utf-8"
  let rw := rw.setHeader "X-Content-Type-Options" "nosniff"
  let rw := rw.writeHeader code
  rw.write (.text (error ++ "\n"))

/-- The uploaded form file: name and size from the part header, and the outcome of
`io.ReadAll(file)`. -/
structure Upload where
  filename : String
  size : Int
  content : List Nat × Option String

/-- The parts of an `http.Request` the handler looks at: the method and the outcome of
`r.FormFile("audio")`. -/
structure Request where
  method : String
  formFile : Upload × Option String

/-- The value `fmt.Sprintf("incoming_%s.webm", timestamp)` of variable `incomingFilename`. -/
def incomingFilename (timestamp : String) : String := "incoming_" ++ timestamp ++ ".webm"

/-- The value `fmt.Sprintf("converted_%s.wav", timestamp)` of variable `convertedFilename`. -/
def convertedFilename (timestamp : String) : String := "converted_" ++ timestamp ++ ".wav"

/-- The statement `if err := f(...); err != nil { log.Printf(msg, err) }`. -/
def logOnError (msg : String) (r : Option String × World) : World :=
  match r with
  | (some err, w) => logPrintf (msg ++ err) w
  | (none, w) => w

/-- The function `HandleTranscription` of transcribe.go. -/
def HandleTranscription {F : Type} (env : Env F) (rw : ResponseWriter) (r : Request)
    (w : World) : Go (ResponseWriter × World) :=
  -- Add CORS headers
  let rw := rw.setHeader "Access-Control-Allow-Origin" "*"
  let rw := rw.setHeader "Access-Control-Allow-Methods" "POST, OPTIONS"
  let rw := rw.setHeader "Access-Control-Allow-Headers" "Content-Type, Authorization"
  -- Handle preflight OPTIONS request
  if r.method = "OPTIONS" then .val (rw.writeHeader 200, w) else
  if r.method ≠ "POST" then .val (httpError rw "Method not allowed" 405, w) else
  -- Read audio file from form
  match r.formFile with
  | (_, some _) => .val (httpError rw "Failed to read audio file" 400, w)
  | (file, none) =>
    let w := logPrintf ("Received file: " ++ file.filename ++ ", size: " ++ toString file.size
      ++ " bytes") w
    -- Read file into buffer
    match file.content with
    | (_, some _) => .val (httpError rw "Failed to read audio data" 500, w)
    | (audioData, none) =>
      -- Save incoming audio file
      let timestamp := formatTimestamp (env.now w)
      let incoming := incomingFilename timestamp
      let w := logOnError "Failed to save incoming file: " (saveFile env audioData incoming w)
      -- Convert and save WAV
      Go.bind (convertAudioToWav env audioData w) fun
      | ((_, some err), w) => .val (httpError rw ("Failed to convert audio: " ++ err) 500, w)
      | ((wavData, none), w) =>
        let converted := convertedFilename timestamp
        let w := logOnError "Failed to save converted file: "
          (saveFile env wavData converted w)
        -- Get transcript
        Go.bind (sendToDeepgram env wavData w) fun
        | ((_, some err), w) => .val (httpError rw ("Transcription failed: " ++ err) 500, w)
        | ((transcript, none), w) =>
          -- Save to database
          let w := logOnError "Failed to save to database: "
            (storage.SaveNote env converted transcript w)
          -- Return response
          let rw := rw.setHeader "Content-Type" "application/json"
          .val (rw.write (.json [("convertedFile", converted),
            ("incomingFile", incoming), ("timestamp", timestamp),
            ("transcript", transcript)]), w)

/-- The service answered the upload of `wav` made in world `w`, and its answer was read and
decoded into `result` without error. -/
def decodesTo {F : Type} (env : Env F) (wav : List Nat) (w : World) (result : DeepgramResult F) :
    Prop :=
  env.newRequestErr (deepgramRequest wav).method (deepgramRequest wav).url = none ∧
  ∃ resp respBody,
    env.clientDo (logPrintf ("Sending WAV audio of size: " ++ toString wav.length ++ " bytes") w)
      (deepgramRequest wav) = (resp, none) ∧
    resp.body = (respBody, none) ∧ env.jsonUnmarshal respBody = (result, none)

/-! ## Stages of `HandleTranscription`, for stating its properties -/

/-- Number of statements sent to the database so far; every call of `storage.SaveNote` sends
exactly one. -/
def dbExecCalls (w : World) : Nat :=
  w.events.countP fun e => match e with
    | .dbExec _ _ => true
    | _ => false

/-- World after the upload `file` was received and logged. -/
def uploadWorld (file : Upload) (w : World) : World :=
  logPrintf ("Received file: " ++ file.filename ++ ", size: " ++ toString file.size
    ++ " bytes") w

/-- The value of variable `timestamp` for a request whose upload was read in world `w`. -/
def requestTimestamp {F : Type} (env : Env F) (file : Upload) (w : World) : String :=
  formatTimestamp (env.now (uploadWorld file w))

/-- World in which the transcode stage starts: the raw upload was archived, or the failure to
do so was logged. -/
def archiveRaw {F : Type} (env : Env F) (file : Upload) (audioData : List Nat) (w : World) :
    World :=
  logOnError "Failed to save incoming file: "
    (saveFile env audioData (incomingFilename (requestTimestamp env file w)) (uploadWorld file w))

/-- World in which the transcribe stage starts: the converted audio was archived, or the
failure to do so was logged. -/
def archiveConverted {F : Type} (env : Env F) (timestamp : String) (wavData : List Nat)
    (w : World) : World :=
  logOnError "Failed to save converted file: "
    (saveFile env wavData (convertedFilename timestamp) w)

/-! ## Concrete worlds used to run the program -/

/-- A filesystem with nothing stored. -/
def emptyFS : FS := fun _ => none

/-- A world with an empty filesystem, no notes and no calls made. -/
def emptyWorld : World := { fs := emptyFS, notes := [], events := [] }

/-- An environment in which every outside call succeeds: the converter writes the bytes
`converted` to its last argument, the service answers with one channel holding the
alternatives `alts`, and the clock shows `now`. Confidence values are natural numbers. -/
def okEnv (converted : List Nat) (alts : List (Alternative Nat)) (now : Time) : Env Nat :=
  { tempDir := "/tmp",
    filepathJoin := fun dir name => dir ++ "/" ++ name,
    writeFileErr := fun _ _ _ => none,
    cmdRun := fun w _ args =>
      { err := none, stderr := "", fs := w.fs.write (args.getLastD "") converted },
    readFileErr := fun _ _ => none,
    removeErr := fun _ _ => none,
    newRequestErr := fun _ _ => none,
    clientDo := fun _ _ => ({ statusCode := 200, headerText := "map[]", body := ([], none) }, none),
    jsonUnmarshal := fun _ => ({ results := { channels := [{ alternatives := alts }] } }, none),
    formatFloat := fun c => toString c,
    dbExecErr := fun _ _ _ => none,
    now := fun _ => now }

/-- An environment like `okEnv` in which every `os.WriteFile` is refused. -/
def readOnlyEnv : Env Nat :=
  { okEnv [] [] ⟨0, 0, 0⟩ with
    writeFileErr := fun _ path _ => some ("open " ++ path ++ ": permission denied") }

/-- An environment like `okEnv` in which the converter leaves a truncated output file and
exits with status 1. -/
def brokenToolEnv : Env Nat :=
  { okEnv [] [] ⟨0, 0, 0⟩ with
    cmdRun := fun w _ args =>
      { err := some "exit status 1", stderr := "Invalid data found when processing input",
        fs := w.fs.write (args.getLastD "") [0x52] } }

/-- An environment like `okEnv` in which the temporary output file cannot be unlinked. -/
def stickyEnv : Env Nat :=
  { okEnv [0x52, 0x49] [] ⟨0, 0, 0⟩ with
    removeErr := fun _ path =>
      if path = "/tmp/output.wav" then some ("remove " ++ path ++ ": operation not permitted")
      else none }

/-- A response writer nothing was written to. -/
def freshWriter : ResponseWriter := { header := [], status := none, body := [] }

/-- A sixteen-byte upload that begins with the WebM magic. -/
def webmUpload : Upload :=
  { filename := "clip.webm", size := 16,
    content := ([0x1A, 0x45, 0xDF, 0xA3, 1, 2, 3, 4, 5, 6, 7, 8, 9, 10, 11, 12], none) }

/-- A POST request carrying `webmUpload` in form field "audio". -/
def postRequest : Request := { method := "POST", formFile := (webmUpload, none) }

/-- A world in which both temporary paths of the converter already hold a file. -/
def staleWorld : World :=
  { fs := (emptyFS.write "/tmp/input.unknown" [1]).write "/tmp/output.wav" [2],
    notes := [], events := [] }

/-! ## Lemmas on `detectAudioFormat` -/

/-- A list of at least twelve elements, spelled out. -/
theorem twelve_of_length {α : Type} (data : List α) (h : 12 ≤ data.length) :
    ∃ a0 a1 a2 a3 a4 a5 a6 a7 a8 a9 a10 a11 rest,
      data = a0 :: a1 :: a2 :: a3 :: a4 :: a5 :: a6 :: a7 :: a8 :: a9 :: a10 :: a11 :: rest := by
  match data, h with
  | a0 :: a1 :: a2 :: a3 :: a4 :: a5 :: a6 :: a7 :: a8 :: a9 :: a10 :: a11 :: rest, _ =>
    exact ⟨a0, a1, a2, a3, a4, a5, a6, a7, a8, a9, a10, a11, rest, rfl⟩

theorem goAnd_val (a b : Bool) : goAnd (.val a) (.val b) = .val (a && b) := by
  cases a <;> rfl

theorem goOr_val (a b : Bool) : goOr (.val a) (.val b) = .val (a || b) := by
  cases a <;> rfl

theorem Go.bind_val {α β : Type} (a : α) (f : α → Go β) : Go.bind (.val a) f = f a := rfl

theorem byteIs_val (data : List Nat) (i v : Nat) (h : i < data.length) :
    byteIs data i v = .val (data.getD i 0 == v) := by
  simp [byteIs, index, Go.bind, List.getElem?_eq_getElem h, List.getD_eq_getElem _ _ h]

theorem maskedByteIs_val (data : List Nat) (i m v : Nat) (h : i < data.length) :
    maskedByteIs data i m v = .val ((data.getD i 0 &&& m) == v) := by
  simp [maskedByteIs, index, Go.bind, List.getElem?_eq_getElem h, List.getD_eq_getElem _ _ h]

/-- On a buffer of at least 12 bytes every index of `detectAudioFormat` is in range, and the
result is the first matching rule. -/
theorem detectAudioFormat_long (data : List Nat) (hlen : 12 ≤ data.length) :
    detectAudioFormat data = .val (
      if (((data.getD 0 0 == 0x1A && data.getD 1 0 == 0x45) && data.getD 2 0 == 0xDF)
          && data.getD 3 0 == 0xA3) = true then "webm"
      else if (((data.getD 0 0 == 0x49 && data.getD 1 0 == 0x44) && data.getD 2 0 == 0x33)
          || (data.getD 0 0 == 0xFF && (data.getD 1 0 &&& 0xFB) == 0xFB)) = true then "mp3"
      else if (((((((data.getD 0 0 == 0x52 && data.getD 1 0 == 0x49) && data.getD 2 0 == 0x46)
          && data.getD 3 0 == 0x46) && data.getD 8 0 == 0x57) && data.getD 9 0 == 0x41)
          && data.getD 10 0 == 0x56) && data.getD 11 0 == 0x45) = true then "wav"
      else "unknown") := by
  have hn : ¬ data.length < 12 := by omega
  simp only [detectAudioFormat, hn, if_false]
  rw [byteIs_val data 0 _ (by omega), byteIs_val data 0 _ (by omega),
    byteIs_val data 0 _ (by omega), byteIs_val data 0 _ (by omega),
    byteIs_val data 1 _ (by omega), byteIs_val data 1 _ (by omega),
    byteIs_val data 1 _ (by omega), byteIs_val data 2 _ (by omega),
    byteIs_val data 2 _ (by omega), byteIs_val data 2 _ (by omega),
    byteIs_val data 3 _ (by omega), byteIs_val data 3 _ (by omega),
    byteIs_val data 8 _ (by omega), byteIs_val data 9 _ (by omega),
    byteIs_val data 10 _ (by omega), byteIs_val data 11 _ (by omega),
    maskedByteIs_val data 1 _ _ (by omega)]
  simp only [goAnd_val, goOr_val, Go.bind_val]
  split_ifs <;> rfl

/-- C1 (as stated) fails: a four-byte buffer holding exactly the WebM magic is "unknown". -/
theorem detectAudioFormat_webm_prefix_only_counterexample :
    isByteSlice [0x1A, 0x45, 0xDF, 0xA3] ∧
    hasBytesAt [0x1A, 0x45, 0xDF, 0xA3] 0 [0x1A, 0x45, 0xDF, 0xA3] ∧
    detectAudioFormat [0x1A, 0x45, 0xDF, 0xA3] = .val "unknown" ∧
    detectAudioFormat [0x1A, 0x45, 0xDF, 0xA3] ≠ .val "webm" := by
  refine ⟨by decide, by decide, by decide, by decide⟩

/-- C1 (amended): a buffer of at least 12 bytes whose first four bytes are 1A 45 DF A3 is
classified "webm", whatever the remaining bytes are. -/
theorem detectAudioFormat_webm (data : List Nat) (hlen : 12 ≤ data.length)
    (hmagic : hasBytesAt data 0 [0x1A, 0x45, 0xDF, 0xA3]) :
    detectAudioFormat data = .val "webm" := by
  obtain ⟨a0, a1, a2, a3, a4, a5, a6, a7, a8, a9, a10, a11, rest, rfl⟩ :=
    twelve_of_length data hlen
  simp only [hasBytesAt, List.drop_zero, List.length_cons, List.length_nil, List.take_succ_cons,
    List.take_zero, List.cons.injEq, and_true] at hmagic
  obtain ⟨rfl, rfl, rfl, rfl⟩ := hmagic
  simp [detectAudioFormat, goAnd, byteIs, index, Go.bind]

theorem detectAudioFormat_webm_witness :
    detectAudioFormat [0x1A, 0x45, 0xDF, 0xA3, 1, 2, 3, 4, 5, 6, 7, 8, 9] = .val "webm" :=
  detectAudioFormat_webm [0x1A, 0x45, 0xDF, 0xA3, 1, 2, 3, 4, 5, 6, 7, 8, 9] (by decide) (by decide)

/-- C3: every buffer shorter than 12 bytes is classified "unknown"; the evaluation ends with a
value, so no index expression went out of range. -/
theorem detectAudioFormat_short (data : List Nat) (hlen : data.length < 12) :
    detectAudioFormat data = .val "unknown" := by
  simp [detectAudioFormat, hlen]

theorem detectAudioFormat_short_witness :
    detectAudioFormat [] = .val "unknown" ∧
    detectAudioFormat [0x52, 0x49, 0x46, 0x46, 0, 0, 0, 0, 0x57, 0x41, 0x56] = .val "unknown" :=
  ⟨detectAudioFormat_short [] (by decide),
   detectAudioFormat_short [0x52, 0x49, 0x46, 0x46, 0, 0, 0, 0, 0x57, 0x41, 0x56] (by decide)⟩

/-- C4: RIFF at offset 0 and WAVE at offset 8 give "wav"; the WebM and MP3 rules, tried first,
do not claim such a buffer. -/
theorem detectAudioFormat_wav (data : List Nat)
    (hriff : hasBytesAt data 0 [0x52, 0x49, 0x46, 0x46])
    (hwave : hasBytesAt data 8 [0x57, 0x41, 0x56, 0x45]) :
    detectAudioFormat data = .val "wav" ∧
    detectAudioFormat data ≠ .val "webm" ∧ detectAudioFormat data ≠ .val "mp3" := by
  have hlen : 12 ≤ data.length := by
    have h := congrArg List.length hwave
    simp [hasBytesAt] at h
    omega
  obtain ⟨a0, a1, a2, a3, a4, a5, a6, a7, a8, a9, a10, a11, rest, rfl⟩ :=
    twelve_of_length data hlen
  simp only [hasBytesAt, List.drop_zero, List.length_cons, List.length_nil, List.take_succ_cons,
    List.take_zero, List.cons.injEq, and_true, List.drop_succ_cons] at hriff hwave
  obtain ⟨rfl, rfl, rfl, rfl⟩ := hriff
  obtain ⟨rfl, rfl, rfl, rfl⟩ := hwave
  have h : detectAudioFormat
      (0x52 :: 0x49 :: 0x46 :: 0x46 :: a4 :: a5 :: a6 :: a7 :: 0x57 :: 0x41 :: 0x56 :: 0x45 :: rest)
      = .val "wav" := by
    simp [detectAudioFormat, goAnd, goOr, byteIs, maskedByteIs, index, Go.bind]
  rw [h]
  refine ⟨rfl, by decide, by decide⟩

theorem detectAudioFormat_wav_witness :
    detectAudioFormat [0x52, 0x49, 0x46, 0x46, 0x24, 0, 0, 0, 0x57, 0x41, 0x56, 0x45, 0x66] =
      .val "wav" :=
  (detectAudioFormat_wav [0x52, 0x49, 0x46, 0x46, 0x24, 0, 0, 0, 0x57, 0x41, 0x56, 0x45, 0x66]
    (by decide) (by decide)).1

/-- C2 (as stated) fails: with byte 0 = 0xFF and byte 1 = 0xF8 the top five bits of byte 1
are set, yet the buffer is not classified "mp3". -/
theorem detectAudioFormat_mp3_top_five_bits_counterexample :
    isByteSlice [0xFF, 0xF8, 0, 0, 0, 0, 0, 0, 0, 0, 0, 0] ∧
    12 ≤ [0xFF, 0xF8, 0, 0, 0, 0, 0, 0, 0, 0, 0, 0].length ∧
    ¬ hasBytesAt [0xFF, 0xF8, 0, 0, 0, 0, 0, 0, 0, 0, 0, 0] 0 [0x1A, 0x45, 0xDF, 0xA3] ∧
    [0xFF, 0xF8, 0, 0, 0, 0, 0, 0, 0, 0, 0, 0][0]? = some 0xFF ∧
    [0xFF, 0xF8, 0, 0, 0, 0, 0, 0, 0, 0, 0, 0][1]? = some 0xF8 ∧
    0xF8 &&& 0xF8 = 0xF8 ∧
    detectAudioFormat [0xFF, 0xF8, 0, 0, 0, 0, 0, 0, 0, 0, 0, 0] = .val "unknown" ∧
    detectAudioFormat [0xFF, 0xF8, 0, 0, 0, 0, 0, 0, 0, 0, 0, 0] ≠ .val "mp3" := by
  refine ⟨by decide, by decide, by decide, by decide, by decide, by decide, by decide, by decide⟩

/-- C2 (amended): a buffer of at least 12 bytes that does not begin with the WebM magic is
classified "mp3" exactly when it begins with ASCII "ID3", or byte 0 is 0xFF and byte 1
satisfies (byte1 AND 0xFB) = 0xFB. -/
theorem detectAudioFormat_mp3_iff (data : List Nat) (hlen : 12 ≤ data.length)
    (hnot : ¬ hasBytesAt data 0 [0x1A, 0x45, 0xDF, 0xA3]) :
    detectAudioFormat data = .val "mp3" ↔
      (hasBytesAt data 0 [0x49, 0x44, 0x33] ∨
        (data[0]? = some 0xFF ∧ ∃ b1, data[1]? = some b1 ∧ b1 &&& 0xFB = 0xFB)) := by
  rw [detectAudioFormat_long data hlen]
  obtain ⟨a0, a1, a2, a3, a4, a5, a6, a7, a8, a9, a10, a11, rest, rfl⟩ :=
    twelve_of_length data hlen
  simp only [hasBytesAt, List.drop_zero, List.length_cons, List.length_nil, List.take_succ_cons,
    List.take_zero, List.cons.injEq, and_true] at hnot
  simp only [hasBytesAt, List.drop_zero, List.length_cons, List.length_nil, List.take_succ_cons,
    List.take_zero, List.cons.injEq, and_true, List.getD_cons_zero, List.getD_cons_succ,
    List.getElem?_cons_zero, List.getElem?_cons_succ, Option.some.injEq, exists_eq_left',
    Bool.and_eq_true, Bool.or_eq_true, beq_iff_eq, and_assoc]
  rw [if_neg hnot]
  by_cases hmp3 : (a0 = 0x49 ∧ a1 = 0x44 ∧ a2 = 0x33) ∨ (a0 = 0xFF ∧ a1 &&& 0xFB = 0xFB)
  · rw [if_pos hmp3]
    exact ⟨fun _ => hmp3, fun _ => rfl⟩
  · rw [if_neg hmp3]
    refine ⟨fun h => absurd h ?_, fun h => absurd h hmp3⟩
    split_ifs <;> decide

theorem detectAudioFormat_mp3_iff_witness :
    detectAudioFormat [0xFF, 0xFB, 0x90, 0x64, 0, 0, 0, 0, 0, 0, 0, 0] = .val "mp3" ↔
      (hasBytesAt [0xFF, 0xFB, 0x90, 0x64, 0, 0, 0, 0, 0, 0, 0, 0] 0 [0x49, 0x44, 0x33] ∨
        ([0xFF, 0xFB, 0x90, 0x64, 0, 0, 0, 0, 0, 0, 0, 0][0]? = some 0xFF ∧
          ∃ b1, [0xFF, 0xFB, 0x90, 0x64, 0, 0, 0, 0, 0, 0, 0, 0][1]? = some b1 ∧
            b1 &&& 0xFB = 0xFB)) :=
  detectAudioFormat_mp3_iff [0xFF, 0xFB, 0x90, 0x64, 0, 0, 0, 0, 0, 0, 0, 0]
    (by decide) (by decide)

/-- For a byte, (b AND 0xFB) = 0xFB means that b is 0xFB or 0xFF. -/
theorem mpegSync_byte (b : Nat) (hb : b < 256) : b &&& 0xFB = 0xFB ↔ b = 0xFB ∨ b = 0xFF := by
  interval_cases b <;> decide

/-- No buffer makes `detectAudioFormat` panic: every index it evaluates is in range. -/
theorem detectAudioFormat_total (data : List Nat) : ∃ s, detectAudioFormat data = .val s := by
  by_cases hlen : data.length < 12
  · exact ⟨"unknown", by simp [detectAudioFormat, hlen]⟩
  · exact ⟨_, detectAudioFormat_long data (by omega)⟩

/-! ## `convertAudioToWav` -/

/-- C5: a buffer classified "wav" is returned unchanged with no error; the filesystem is left
as it was and the only outside call is the log line (no temp file, no child process). Feeding
the output back in returns the same bytes again. -/
theorem convertAudioToWav_fast_path {F : Type} (env : Env F) (audioData : List Nat) (w : World)
    (hwav : detectAudioFormat audioData = .val "wav") :
    ∃ out w1, convertAudioToWav env audioData w = .val ((out, none), w1) ∧ out = audioData ∧
      w1.fs = w.fs ∧ w1.notes = w.notes ∧
      w1.events = w.events ++ [.log "Detected audio format: wav"] ∧
      ∃ w2, convertAudioToWav env out w1 = .val ((out, none), w2) ∧ w2.fs = w.fs := by
  have h : ∀ w0 : World, convertAudioToWav env audioData w0 =
      .val ((audioData, none), logPrintf "Detected audio format: wav" w0) := by
    intro w0
    simp [convertAudioToWav, hwav, Go.bind]
  exact ⟨audioData, _, h w, rfl, rfl, rfl, rfl, _, h _, rfl⟩

theorem convertAudioToWav_fast_path_witness :
    ∃ out w1, convertAudioToWav readOnlyEnv
        [0x52, 0x49, 0x46, 0x46, 0x24, 0, 0, 0, 0x57, 0x41, 0x56, 0x45] staleWorld =
          .val ((out, none), w1) ∧
      out = [0x52, 0x49, 0x46, 0x46, 0x24, 0, 0, 0, 0x57, 0x41, 0x56, 0x45] ∧
      w1.fs = staleWorld.fs ∧ w1.notes = staleWorld.notes ∧
      w1.events = staleWorld.events ++ [.log "Detected audio format: wav"] ∧
      ∃ w2, convertAudioToWav readOnlyEnv out w1 = .val ((out, none), w2) ∧
        w2.fs = staleWorld.fs :=
  convertAudioToWav_fast_path readOnlyEnv
    [0x52, 0x49, 0x46, 0x46, 0x24, 0, 0, 0, 0x57, 0x41, 0x56, 0x45] staleWorld (by decide)

/-- C9 (as stated) fails on the exit taken when the temporary input file cannot be written:
that return comes before the two removals are deferred, so files already stored under the
two temporary paths are still there when the function returns. -/
theorem convertAudioToWav_write_failure_counterexample :
    detectAudioFormat [] = .val "unknown" ∧
    ∃ w1, convertAudioToWav readOnlyEnv [] staleWorld =
        .val (([], some ("failed to write temp input file: "
          ++ "open /tmp/input.unknown: permission denied")), w1) ∧
      w1.fs "/tmp/input.unknown" = some [1] ∧ w1.fs "/tmp/output.wav" = some [2] := by
  refine ⟨by decide, _, rfl, ?_, ?_⟩ <;> decide

/-- C9 (amended): on the slow path, once the temporary input file was written, every exit
(success, converter failure, read-back failure) runs both deferred removals before the
function returns, `os.Remove(outputPath)` first and `os.Remove(inputPath)` second, from some
world `wd` reached by the body. Each path whose removal succeeds has nothing stored under it at
return; the result of `os.Remove` is discarded, so nothing is promised for a path whose
removal fails. -/
theorem convertAudioToWav_cleanup {F : Type} (env : Env F) (audioData : List Nat) (w : World)
    (format : String) (hfmt : detectAudioFormat audioData = .val format) (hslow : format ≠ "wav")
    (hwrite : env.writeFileErr (logPrintf ("Detected audio format: " ++ format) w)
      (env.filepathJoin env.tempDir ("input." ++ format)) audioData = none) :
    ∃ res wd w1, convertAudioToWav env audioData w = .val (res, w1) ∧
      w1 = osRemove env (env.filepathJoin env.tempDir ("input." ++ format))
        (osRemove env (env.filepathJoin env.tempDir "output.wav") wd) ∧
      w1.events = wd.events ++ [.remove (env.filepathJoin env.tempDir "output.wav"),
        .remove (env.filepathJoin env.tempDir ("input." ++ format))] ∧
      (env.removeErr wd (env.filepathJoin env.tempDir "output.wav") = none →
        w1.fs (env.filepathJoin env.tempDir "output.wav") = none) ∧
      (env.removeErr (osRemove env (env.filepathJoin env.tempDir "output.wav") wd)
          (env.filepathJoin env.tempDir ("input." ++ format)) = none →
        w1.fs (env.filepathJoin env.tempDir ("input." ++ format)) = none) := by
  have hrm : ∀ (p q : String) (wd : World),
      (osRemove env p (osRemove env q wd)).events = wd.events ++ [.remove q, .remove p] ∧
      (env.removeErr wd q = none → (osRemove env p (osRemove env q wd)).fs q = none) ∧
      (env.removeErr (osRemove env q wd) p = none →
        (osRemove env p (osRemove env q wd)).fs p = none) := by
    intro p q wd
    refine ⟨?_, ?_, ?_⟩
    · simp only [osRemove]
      split <;> split <;> simp
    · intro hq
      have h1 : (osRemove env q wd).fs q = none := by
        simp [osRemove, hq, FS.remove]
      generalize osRemove env q wd = w2 at h1 ⊢
      simp only [osRemove]
      split
      · exact h1
      · by_cases hqp : q = p <;> simp [FS.remove, hqp, h1]
    · intro hp
      generalize osRemove env q wd = w2 at hp ⊢
      simp [osRemove, hp, FS.remove]
  simp only [convertAudioToWav, hfmt, Go.bind, if_neg hslow, osWriteFile, hwrite]
  split
  · exact ⟨_, _, _, rfl, rfl, hrm _ _ _⟩
  · split
    · exact ⟨_, _, _, rfl, rfl, hrm _ _ _⟩
    · exact ⟨_, _, _, rfl, rfl, hrm _ _ _⟩

theorem convertAudioToWav_cleanup_witness :
    ∃ res w1, convertAudioToWav brokenToolEnv [] staleWorld = .val (res, w1) ∧
      w1.fs (brokenToolEnv.filepathJoin brokenToolEnv.tempDir ("input." ++ "unknown")) = none ∧
      w1.fs (brokenToolEnv.filepathJoin brokenToolEnv.tempDir "output.wav") = none :=
  match convertAudioToWav_cleanup brokenToolEnv [] staleWorld "unknown"
      (by decide) (by decide) rfl with
  | ⟨res, _, w1, hrun, _, _, hout, hin⟩ => ⟨res, w1, hrun, hin rfl, hout rfl⟩

/-- When a deferred removal fails the file stays: the converter succeeds, the input path is
unlinked, and the output path, which could not be unlinked, still holds the converted bytes
when `convertAudioToWav` returns them. -/
theorem convertAudioToWav_failed_removal_stays :
    ∃ w1, convertAudioToWav stickyEnv [] emptyWorld = .val (([0x52, 0x49], none), w1) ∧
      w1.fs "/tmp/input.unknown" = none ∧ w1.fs "/tmp/output.wav" = some [0x52, 0x49] := by
  refine ⟨_, rfl, ?_, ?_⟩ <;> decide

/-! ## `sendToDeepgram` -/

theorem emptyTranscriptError_ne_noResultsError (c : String) :
    emptyTranscriptError c ≠ noResultsError := by
  intro h
  have h2 := congrArg String.data h
  simp [emptyTranscriptError, noResultsError] at h2

/-- Once the answer is decoded, `sendToDeepgram` is its tail: the checks on `result`. -/
theorem sendToDeepgram_decoded {F : Type} (env : Env F) (wav : List Nat) (w : World)
    (result : DeepgramResult F) (hdec : decodesTo env wav w result) :
    ∃ w1 : World, w1.fs = w.fs ∧ w1.notes = w.notes ∧
      sendToDeepgram env wav w =
        match result.results.channels with
        | [] => .val (("", some noResultsError), w1)
        | c :: _ =>
          match c.alternatives with
          | [] => .val (("", some noResultsError), w1)
          | a :: _ =>
            if a.transcript = "" then
              .val (("", some (emptyTranscriptError (env.formatFloat a.confidence))),
                logPrintf ("Transcript confidence: " ++ env.formatFloat a.confidence) w1)
            else
              .val ((a.transcript, none),
                logPrintf ("Transcript confidence: " ++ env.formatFloat a.confidence) w1) := by
  obtain ⟨hreq, resp, respBody, hdo, hbody, hjson⟩ := hdec
  refine ⟨logPrintf ("Deepgram Response: " ++ goString respBody)
    (logPrintf ("Response Headers: " ++ resp.headerText)
      (logPrintf ("Response Status: " ++ toString resp.statusCode)
        { logPrintf ("Sending WAV audio of size: " ++ toString wav.length ++ " bytes") w with
          events := (logPrintf ("Sending WAV audio of size: " ++ toString wav.length
            ++ " bytes") w).events ++ [.httpDo (deepgramRequest wav)] })), ?_, ?_, ?_⟩
  rotate_left 2
  · simp only [sendToDeepgram, hreq, clientDo, hdo, hbody, hjson]
    cases hch : result.results.channels with
    | nil => simp [goOr, Go.bind]
    | cons c cs =>
      cases halt : c.alternatives with
      | nil => simp [goOr, Go.bind, index, halt]
      | cons a as =>
        by_cases ht : a.transcript = "" <;> simp [goOr, Go.bind, index, halt, ht]
  · rfl
  · rfl

/-- C6: when the decoded answer has a channel 0 whose alternative 0 has transcript "",
`sendToDeepgram` returns the empty-transcript error, whose text carries the rendered
confidence; it never returns without an error, and the error is not the no-results error.
The confidence value is arbitrary. -/
theorem sendToDeepgram_empty_transcript {F : Type} (env : Env F) (wav : List Nat) (w : World)
    (result : DeepgramResult F) (c : Channel F) (cs : List (Channel F))
    (a : Alternative F) (as : List (Alternative F))
    (hdec : decodesTo env wav w result)
    (hch : result.results.channels = c :: cs) (halt : c.alternatives = a :: as)
    (hempty : a.transcript = "") :
    (∃ w1, sendToDeepgram env wav w =
      .val (("", some ("empty transcript received (confidence: "
        ++ env.formatFloat a.confidence ++ ")")), w1)) ∧
    (∀ out w1, sendToDeepgram env wav w = .val (out, w1) → out.2 ≠ none) ∧
    (∀ out w1, sendToDeepgram env wav w = .val (out, w1) →
      out.2 ≠ some "no transcription results found") := by
  obtain ⟨w0, -, -, h⟩ := sendToDeepgram_decoded env wav w result hdec
  simp only [hch, halt, hempty, if_true] at h
  rw [h]
  refine ⟨⟨_, rfl⟩, ?_, ?_⟩
  · intro out w1 heq
    cases heq
    simp
  · intro out w1 heq
    cases heq
    have hne := emptyTranscriptError_ne_noResultsError (env.formatFloat a.confidence)
    simpa [noResultsError] using hne

theorem sendToDeepgram_empty_transcript_witness :
    (∃ w1, sendToDeepgram (okEnv [] [⟨"", 92⟩] ⟨0, 0, 0⟩) [1, 2, 3] emptyWorld =
      .val (("", some ("empty transcript received (confidence: "
        ++ (okEnv [] [⟨"", 92⟩] ⟨0, 0, 0⟩).formatFloat 92 ++ ")")), w1)) ∧
    (∀ out w1, sendToDeepgram (okEnv [] [⟨"", 92⟩] ⟨0, 0, 0⟩) [1, 2, 3] emptyWorld =
      .val (out, w1) → out.2 ≠ none) ∧
    (∀ out w1, sendToDeepgram (okEnv [] [⟨"", 92⟩] ⟨0, 0, 0⟩) [1, 2, 3] emptyWorld =
      .val (out, w1) → out.2 ≠ some "no transcription results found") :=
  sendToDeepgram_empty_transcript (okEnv [] [⟨"", 92⟩] ⟨0, 0, 0⟩) [1, 2, 3] emptyWorld
    { results := { channels := [{ alternatives := [⟨"", 92⟩] }] } }
    { alternatives := [⟨"", 92⟩] } [] ⟨"", 92⟩ []
    ⟨rfl, _, _, rfl, rfl, rfl⟩ rfl rfl rfl

/-- C7: for a decoded answer, `sendToDeepgram` returns the no-results error exactly when
`results.channels` is empty or the alternatives of channel 0 are empty; and in every case the
call ends with a return, not with an index out of range. -/
theorem sendToDeepgram_no_results_iff {F : Type} (env : Env F) (wav : List Nat) (w : World)
    (result : DeepgramResult F) (hdec : decodesTo env wav w result) :
    ((∃ t w1, sendToDeepgram env wav w = .val ((t, some "no transcription results found"), w1))
      ↔ (result.results.channels = [] ∨
          ∃ c cs, result.results.channels = c :: cs ∧ c.alternatives = [])) ∧
    (∃ out w1, sendToDeepgram env wav w = .val (out, w1)) := by
  obtain ⟨w0, -, -, h⟩ := sendToDeepgram_decoded env wav w result hdec
  rw [h]
  cases hch : result.results.channels with
  | nil => exact ⟨⟨fun _ => Or.inl rfl, fun _ => ⟨_, _, rfl⟩⟩, _, _, rfl⟩
  | cons c cs =>
    cases halt : c.alternatives with
    | nil =>
      simp only [halt]
      exact ⟨⟨fun _ => Or.inr ⟨c, cs, rfl, halt⟩, fun _ => ⟨_, _, rfl⟩⟩, _, _, rfl⟩
    | cons a as =>
      simp only [halt]
      have hne : ¬ (result.results.channels = [] ∨
          ∃ c cs, result.results.channels = c :: cs ∧ c.alternatives = []) := by
        rintro (h0 | ⟨c1, cs1, h1, h2⟩)
        · simp [hch] at h0
        · rw [hch] at h1
          cases h1
          simp [halt] at h2
      rw [hch] at hne
      by_cases ht : a.transcript = ""
      · simp only [ht, if_true]
        refine ⟨⟨fun hex => ?_, fun hr => absurd hr hne⟩, _, _, rfl⟩
        obtain ⟨t, w1, heq⟩ := hex
        simp only [Go.val.injEq, Prod.mk.injEq, Option.some.injEq] at heq
        exact absurd heq.1.2
          (emptyTranscriptError_ne_noResultsError (env.formatFloat a.confidence))
      · simp only [ht, if_false]
        refine ⟨⟨fun hex => ?_, fun hr => absurd hr hne⟩, _, _, rfl⟩
        obtain ⟨t, w1, heq⟩ := hex
        simp at heq

theorem sendToDeepgram_no_results_iff_witness :
    ((∃ t w1, sendToDeepgram (okEnv [] [] ⟨0, 0, 0⟩) [1, 2, 3] emptyWorld =
        .val ((t, some "no transcription results found"), w1))
      ↔ (([{ alternatives := [] }] : List (Channel Nat)) = [] ∨
          ∃ c cs, ([{ alternatives := [] }] : List (Channel Nat)) = c :: cs ∧
            c.alternatives = [])) ∧
    (∃ out w1, sendToDeepgram (okEnv [] [] ⟨0, 0, 0⟩) [1, 2, 3] emptyWorld = .val (out, w1)) :=
  sendToDeepgram_no_results_iff (okEnv [] [] ⟨0, 0, 0⟩) [1, 2, 3] emptyWorld
    { results := { channels := [{ alternatives := [] }] } } ⟨rfl, _, _, rfl, rfl, rfl⟩

/-! ## Frame lemmas: which calls touch the notes table -/

/-- The notes table and the number of database statements are the same in both worlds. -/
theorem logPrintf_db (msg : String) (w : World) :
    (logPrintf msg w).notes = w.notes ∧ dbExecCalls (logPrintf msg w) = dbExecCalls w := by
  simp [logPrintf, dbExecCalls]

theorem osWriteFile_db {F : Type} (env : Env F) (path : String) (data : List Nat) (w : World) :
    (osWriteFile env path data w).2.notes = w.notes ∧
      dbExecCalls (osWriteFile env path data w).2 = dbExecCalls w := by
  unfold osWriteFile
  cases env.writeFileErr w path data <;> simp [dbExecCalls]

theorem osRemove_db {F : Type} (env : Env F) (path : String) (w : World) :
    (osRemove env path w).notes = w.notes ∧
      dbExecCalls (osRemove env path w) = dbExecCalls w := by
  unfold osRemove
  cases env.removeErr w path <;> simp [dbExecCalls]

theorem osReadFile_db {F : Type} (env : Env F) (path : String) (w : World) :
    (osReadFile env path w).2.notes = w.notes ∧
      dbExecCalls (osReadFile env path w).2 = dbExecCalls w := by
  unfold osReadFile
  cases w.fs path with
  | none => simp [dbExecCalls]
  | some data => cases env.readFileErr w path <;> simp [dbExecCalls]

theorem cmdRun_db {F : Type} (env : Env F) (name : String) (args : List String) (w : World) :
    (cmdRun env name args w).2.notes = w.notes ∧
      dbExecCalls (cmdRun env name args w).2 = dbExecCalls w := by
  simp [cmdRun, dbExecCalls]

theorem logOnError_db (msg : String) (r : Option String × World) :
    (logOnError msg r).notes = r.2.notes ∧ dbExecCalls (logOnError msg r) = dbExecCalls r.2 := by
  obtain ⟨e, w⟩ := r
  cases e with
  | none => exact ⟨rfl, rfl⟩
  | some err => exact logPrintf_db _ _

theorem saveFile_db {F : Type} (env : Env F) (data : List Nat) (filename : String) (w : World) :
    (saveFile env data filename w).2.notes = w.notes ∧
      dbExecCalls (saveFile env data filename w).2 = dbExecCalls w :=
  osWriteFile_db env _ data w

theorem convertAudioToWav_db {F : Type} (env : Env F) (audioData : List Nat) (w w1 : World)
    (res : List Nat × Option String)
    (h : convertAudioToWav env audioData w = .val (res, w1)) :
    w1.notes = w.notes ∧ dbExecCalls w1 = dbExecCalls w := by
  obtain ⟨format, hfmt⟩ := detectAudioFormat_total audioData
  simp only [convertAudioToWav, hfmt, Go.bind] at h
  have hlog := logPrintf_db ("Detected audio format: " ++ format) w
  split at h
  · cases h
    exact hlog
  · have hwr := osWriteFile_db env (env.filepathJoin env.tempDir ("input." ++ format)) audioData
      (logPrintf ("Detected audio format: " ++ format) w)
    split at h
    next err w2 heq =>
      cases h
      rw [heq] at hwr
      exact ⟨hwr.1.trans hlog.1, hwr.2.trans hlog.2⟩
    next w2 heq =>
      rw [heq] at hwr
      have hw2 : w2.notes = w.notes ∧ dbExecCalls w2 = dbExecCalls w :=
        ⟨hwr.1.trans hlog.1, hwr.2.trans hlog.2⟩
      have hdefer : ∀ (p q : String) (w3 : World),
          w3.notes = w.notes ∧ dbExecCalls w3 = dbExecCalls w →
          (osRemove env p (osRemove env q w3)).notes = w.notes ∧
            dbExecCalls (osRemove env p (osRemove env q w3)) = dbExecCalls w := by
        intro p q w3 h3
        have h1 := osRemove_db env q w3
        have h2 := osRemove_db env p (osRemove env q w3)
        exact ⟨h2.1.trans (h1.1.trans h3.1), h2.2.trans (h1.2.trans h3.2)⟩
      have hrun := cmdRun_db env "ffmpeg"
        ["-i", env.filepathJoin env.tempDir ("input." ++ format), "-acodec", "pcm_s24le",
          "-ac", "2", "-ar", "48000", "-af", "highpass=f=50,lowpass=f=20000", "-y",
          env.filepathJoin env.tempDir "output.wav"] w2
      have hw3 := And.intro (hrun.1.trans hw2.1) (hrun.2.trans hw2.2)
      split at h
      · cases h
        exact hdefer _ _ _ hw3
      · have hrd := osReadFile_db env (env.filepathJoin env.tempDir "output.wav")
          (cmdRun env "ffmpeg"
            ["-i", env.filepathJoin env.tempDir ("input." ++ format), "-acodec", "pcm_s24le",
              "-ac", "2", "-ar", "48000", "-af", "highpass=f=50,lowpass=f=20000", "-y",
              env.filepathJoin env.tempDir "output.wav"] w2).2
        split at h
        next x err w4 heq2 =>
          cases h
          rw [heq2] at hrd
          exact hdefer _ _ _ ⟨hrd.1.trans hw3.1, hrd.2.trans hw3.2⟩
        next wavData w4 heq2 =>
          cases h
          rw [heq2] at hrd
          have hl := logPrintf_db
            ("Converted audio size: " ++ toString wavData.length ++ " bytes") w4
          exact hdefer _ _ _ ⟨hl.1.trans (hrd.1.trans hw3.1), hl.2.trans (hrd.2.trans hw3.2)⟩

/-- The call `convertAudioToWav` always returns: it never panics. -/
theorem convertAudioToWav_total {F : Type} (env : Env F) (audioData : List Nat) (w : World) :
    ∃ res w1, convertAudioToWav env audioData w = .val (res, w1) := by
  obtain ⟨format, hfmt⟩ := detectAudioFormat_total audioData
  simp only [convertAudioToWav, hfmt, Go.bind]
  split
  · exact ⟨_, _, rfl⟩
  · split
    · exact ⟨_, _, rfl⟩
    · split
      · exact ⟨_, _, rfl⟩
      · split <;> exact ⟨_, _, rfl⟩

theorem clientDo_db {F : Type} (env : Env F) (req : HttpRequest) (w : World) :
    (clientDo env req w).2.notes = w.notes ∧
      dbExecCalls (clientDo env req w).2 = dbExecCalls w := by
  simp [clientDo, dbExecCalls]

/-- The call `sendToDeepgram` always returns (it never panics), and it leaves the notes table
alone. -/
theorem sendToDeepgram_returns {F : Type} (env : Env F) (wav : List Nat) (w : World) :
    ∃ res w1, sendToDeepgram env wav w = .val (res, w1) ∧
      w1.notes = w.notes ∧ dbExecCalls w1 = dbExecCalls w := by
  unfold sendToDeepgram
  simp only []
  split
  · exact ⟨_, _, rfl, rfl, rfl⟩
  · have hlog := logPrintf_db
      ("Sending WAV audio of size: " ++ toString wav.length ++ " bytes") w
    have hdo := clientDo_db env (deepgramRequest wav)
      (logPrintf ("Sending WAV audio of size: " ++ toString wav.length ++ " bytes") w)
    split
    next resp err w2 heq =>
      rw [heq] at hdo
      exact ⟨_, _, rfl, hdo.1.trans hlog.1, hdo.2.trans hlog.2⟩
    next resp w2 heq =>
      rw [heq] at hdo
      have hw2 : w2.notes = w.notes ∧ dbExecCalls w2 = dbExecCalls w :=
        ⟨hdo.1.trans hlog.1, hdo.2.trans hlog.2⟩
      split
      · exact ⟨_, _, rfl, hw2⟩
      · next respBody hbody =>
        have hw3 : ∀ m1 m2 m3 : String,
            (logPrintf m3 (logPrintf m2 (logPrintf m1 w2))).notes = w.notes ∧
            dbExecCalls (logPrintf m3 (logPrintf m2 (logPrintf m1 w2))) = dbExecCalls w := by
          intro m1 m2 m3
          have h1 := logPrintf_db m1 w2
          have h2 := logPrintf_db m2 (logPrintf m1 w2)
          have h3 := logPrintf_db m3 (logPrintf m2 (logPrintf m1 w2))
          exact ⟨h3.1.trans (h2.1.trans (h1.1.trans hw2.1)),
            h3.2.trans (h2.2.trans (h1.2.trans hw2.2))⟩
        have hw4 := hw3 ("Response Status: " ++ toString resp.statusCode)
          ("Response Headers: " ++ resp.headerText) ("Deepgram Response: " ++ goString respBody)
        split
        · exact ⟨_, _, rfl, hw4⟩
        · next result hjson =>
          cases hch : result.results.channels with
          | nil =>
            refine ⟨("", some noResultsError), _, ?_, hw4⟩
            simp [goOr, Go.bind]
          | cons c cs =>
            cases halt : c.alternatives with
            | nil =>
              refine ⟨("", some noResultsError), _, ?_, hw4⟩
              simp [goOr, Go.bind, index, halt]
            | cons a as =>
              have h4 := logPrintf_db ("Transcript confidence: "
                ++ env.formatFloat a.confidence) (logPrintf
                  ("Deepgram Response: " ++ goString respBody)
                  (logPrintf ("Response Headers: " ++ resp.headerText)
                    (logPrintf ("Response Status: " ++ toString resp.statusCode) w2)))
              have h5 := And.intro (h4.1.trans hw4.1) (h4.2.trans hw4.2)
              by_cases ht : a.transcript = ""
              · refine ⟨("", some (emptyTranscriptError (env.formatFloat a.confidence))), _,
                  ?_, h5⟩
                simp [goOr, Go.bind, index, halt, ht]
              · refine ⟨(a.transcript, none), _, ?_, h5⟩
                simp [goOr, Go.bind, index, halt, ht]

/-- Every call of `storage.SaveNote` sends one database statement. -/
theorem SaveNote_db {F : Type} (env : Env F) (filename transcript : String) (w : World) :
    dbExecCalls (storage.SaveNote env filename transcript w).2 = dbExecCalls w + 1 := by
  simp only [storage.SaveNote]
  split <;> simp [dbExecCalls, List.countP_append]

/-! ## `HandleTranscription` -/

theorem httpError_status_body (rw : ResponseWriter) (msg : String) (code : Nat)
    (hfresh : rw.status = none) :
    (httpError rw msg code).status = some code ∧
      (httpError rw msg code).body = rw.body ++ [.text (msg ++ "\n")] := by
  simp [httpError, ResponseWriter.write, ResponseWriter.writeHeader, ResponseWriter.setHeader,
    hfresh]

/-- C8: for a POST request whose upload was read, the response depends on the transcode and
transcribe stages only. Both stages always return. If `convertAudioToWav` fails, or it
succeeds and `sendToDeepgram` fails, the response has status 500, its body is the stage prefix
followed by the cause text, no database statement was sent and the notes table is unchanged.
If both succeed the response has status 200 and its body carries the transcript returned by
`sendToDeepgram`, with one database statement sent. The outcomes of the two `saveFile` calls
and of `storage.SaveNote` are arbitrary throughout. -/
theorem HandleTranscription_outcome {F : Type} (env : Env F) (rw : ResponseWriter)
    (r : Request) (w : World) (file : Upload) (audioData : List Nat)
    (hpost : r.method = "POST") (hform : r.formFile = (file, none))
    (hread : file.content = (audioData, none)) (hfresh : rw.status = none) :
    (∃ res w2, convertAudioToWav env audioData (archiveRaw env file audioData w)
        = .val (res, w2)) ∧
    (∀ b e w2, convertAudioToWav env audioData (archiveRaw env file audioData w)
        = .val ((b, some e), w2) →
      ∃ rw1, HandleTranscription env rw r w = .val (rw1, w2) ∧ rw1.status = some 500 ∧
        rw1.body = rw.body ++ [.text ("Failed to convert audio: " ++ e ++ "\n")] ∧
        dbExecCalls w2 = dbExecCalls w ∧ w2.notes = w.notes) ∧
    (∀ wavData w2, convertAudioToWav env audioData (archiveRaw env file audioData w)
        = .val ((wavData, none), w2) →
      (∃ res w4, sendToDeepgram env wavData
          (archiveConverted env (requestTimestamp env file w) wavData w2) = .val (res, w4)) ∧
      (∀ t e w4, sendToDeepgram env wavData
          (archiveConverted env (requestTimestamp env file w) wavData w2)
            = .val ((t, some e), w4) →
        ∃ rw1, HandleTranscription env rw r w = .val (rw1, w4) ∧ rw1.status = some 500 ∧
          rw1.body = rw.body ++ [.text ("Transcription failed: " ++ e ++ "\n")] ∧
          dbExecCalls w4 = dbExecCalls w ∧ w4.notes = w.notes) ∧
      (∀ transcript w4, sendToDeepgram env wavData
          (archiveConverted env (requestTimestamp env file w) wavData w2)
            = .val ((transcript, none), w4) →
        ∃ rw1 w5, HandleTranscription env rw r w = .val (rw1, w5) ∧ rw1.status = some 200 ∧
          rw1.body = rw.body ++ [.json [
            ("convertedFile", convertedFilename (requestTimestamp env file w)),
            ("incomingFile", incomingFilename (requestTimestamp env file w)),
            ("timestamp", requestTimestamp env file w),
            ("transcript", transcript)]] ∧
          dbExecCalls w5 = dbExecCalls w + 1)) := by
  have hopt : ¬ r.method = "OPTIONS" := by rw [hpost]; decide
  have hraw : (archiveRaw env file audioData w).notes = w.notes ∧
      dbExecCalls (archiveRaw env file audioData w) = dbExecCalls w := by
    have h1 := logPrintf_db ("Received file: " ++ file.filename ++ ", size: "
      ++ toString file.size ++ " bytes") w
    have h2 := saveFile_db env audioData (incomingFilename (requestTimestamp env file w))
      (uploadWorld file w)
    have h3 := logOnError_db "Failed to save incoming file: "
      (saveFile env audioData (incomingFilename (requestTimestamp env file w))
        (uploadWorld file w))
    exact ⟨h3.1.trans (h2.1.trans h1.1), h3.2.trans (h2.2.trans h1.2)⟩
  have hcors : ∀ rw0 : ResponseWriter, rw0 = ((rw.setHeader "Access-Control-Allow-Origin" "*"
      ).setHeader "Access-Control-Allow-Methods" "POST, OPTIONS").setHeader
        "Access-Control-Allow-Headers" "Content-Type, Authorization" →
      rw0.status = none ∧ rw0.body = rw.body := by
    rintro rw0 rfl
    exact ⟨hfresh, rfl⟩
  have hstep : ∀ w0 : World, HandleTranscription env rw r w0 =
      Go.bind (convertAudioToWav env audioData (archiveRaw env file audioData w0)) fun
      | ((_, some err), w) => .val (httpError (((rw.setHeader "Access-Control-Allow-Origin" "*"
          ).setHeader "Access-Control-Allow-Methods" "POST, OPTIONS").setHeader
            "Access-Control-Allow-Headers" "Content-Type, Authorization")
          ("Failed to convert audio: " ++ err) 500, w)
      | ((wavData, none), w) =>
        Go.bind (sendToDeepgram env wavData
          (archiveConverted env (requestTimestamp env file w0) wavData w)) fun
        | ((_, some err), w) => .val (httpError (((rw.setHeader
            "Access-Control-Allow-Origin" "*").setHeader "Access-Control-Allow-Methods"
              "POST, OPTIONS").setHeader "Access-Control-Allow-Headers"
                "Content-Type, Authorization") ("Transcription failed: " ++ err) 500, w)
        | ((transcript, none), w) =>
          .val (((((rw.setHeader "Access-Control-Allow-Origin" "*").setHeader
            "Access-Control-Allow-Methods" "POST, OPTIONS").setHeader
              "Access-Control-Allow-Headers" "Content-Type, Authorization").setHeader
                "Content-Type" "application/json").write (.json [
                  ("convertedFile", convertedFilename (requestTimestamp env file w0)),
                  ("incomingFile", incomingFilename (requestTimestamp env file w0)),
                  ("timestamp", requestTimestamp env file w0),
                  ("transcript", transcript)]),
            logOnError "Failed to save to database: " (storage.SaveNote env
              (convertedFilename (requestTimestamp env file w0)) transcript w)) := by
    intro w0
    simp only [HandleTranscription, hopt, hpost, hform, hread, if_false, ne_eq,
      not_true_eq_false]
    rfl
  refine ⟨convertAudioToWav_total env audioData _, ?_, ?_⟩
  · intro b e w2 hconv
    have hdb := convertAudioToWav_db env audioData _ w2 _ hconv
    have herr := httpError_status_body _ ("Failed to convert audio: " ++ e) 500
      (hcors _ rfl).1
    refine ⟨_, ?_, herr.1, ?_, hdb.2.trans hraw.2, hdb.1.trans hraw.1⟩
    · rw [hstep, hconv]; rfl
    · rw [herr.2, String.append_assoc]; rfl
  · intro wavData w2 hconv
    have hdb := convertAudioToWav_db env audioData _ w2 _ hconv
    have hw2 := And.intro (hdb.1.trans hraw.1) (hdb.2.trans hraw.2)
    have harch : (archiveConverted env (requestTimestamp env file w) wavData w2).notes
          = w.notes ∧
        dbExecCalls (archiveConverted env (requestTimestamp env file w) wavData w2)
          = dbExecCalls w := by
      have h2 := saveFile_db env wavData (convertedFilename (requestTimestamp env file w)) w2
      have h3 := logOnError_db "Failed to save converted file: "
        (saveFile env wavData (convertedFilename (requestTimestamp env file w)) w2)
      exact ⟨h3.1.trans (h2.1.trans hw2.1), h3.2.trans (h2.2.trans hw2.2)⟩
    obtain ⟨res, w4, hsend, hn4, hd4⟩ := sendToDeepgram_returns env wavData
      (archiveConverted env (requestTimestamp env file w) wavData w2)
    refine ⟨⟨res, w4, hsend⟩, ?_, ?_⟩
    · intro t e w4b hs
      rw [hsend] at hs
      cases hs
      have herr := httpError_status_body
        (((rw.setHeader "Access-Control-Allow-Origin" "*").setHeader
          "Access-Control-Allow-Methods" "POST, OPTIONS").setHeader
            "Access-Control-Allow-Headers" "Content-Type, Authorization")
        ("Transcription failed: " ++ e) 500 (hcors _ rfl).1
      refine ⟨_, ?_, herr.1, ?_, hd4.trans harch.2, hn4.trans harch.1⟩
      · rw [hstep, hconv]
        simp only [Go.bind, hsend]
      · rw [herr.2, String.append_assoc]; rfl
    · intro transcript w4b hs
      rw [hsend] at hs
      cases hs
      have hrun : HandleTranscription env rw r w = .val
          (((((rw.setHeader "Access-Control-Allow-Origin" "*").setHeader
            "Access-Control-Allow-Methods" "POST, OPTIONS").setHeader
              "Access-Control-Allow-Headers" "Content-Type, Authorization").setHeader
                "Content-Type" "application/json").write (.json [
                  ("convertedFile", convertedFilename (requestTimestamp env file w)),
                  ("incomingFile", incomingFilename (requestTimestamp env file w)),
                  ("timestamp", requestTimestamp env file w),
                  ("transcript", transcript)]),
            logOnError "Failed to save to database: " (storage.SaveNote env
              (convertedFilename (requestTimestamp env file w)) transcript w4)) := by
        rw [hstep, hconv]
        simp only [Go.bind, hsend]
      refine ⟨_, _, hrun, ?_, ?_, ?_⟩
      · simp [ResponseWriter.write, ResponseWriter.writeHeader, ResponseWriter.setHeader, hfresh]
      · simp [ResponseWriter.write, ResponseWriter.writeHeader, ResponseWriter.setHeader, hfresh]
      · have h6 := logOnError_db "Failed to save to database: " (storage.SaveNote env
          (convertedFilename (requestTimestamp env file w)) transcript w4)
        rw [h6.2, ← hd4.trans harch.2]
        exact SaveNote_db env _ _ w4

theorem HandleTranscription_outcome_witness :
    ∃ rw1 w5, HandleTranscription (okEnv [0x52, 0x49] [⟨"hello world", 92⟩] ⟨1793692800, 0, 0⟩)
        freshWriter postRequest emptyWorld = .val (rw1, w5) ∧
      rw1.status = some 200 ∧
      rw1.body = [.json [
        ("convertedFile", "converted_20261103-080000.wav"),
        ("incomingFile", "incoming_20261103-080000.webm"),
        ("timestamp", "20261103-080000"),
        ("transcript", "hello world")]] ∧
      dbExecCalls w5 = 1 :=
  ((HandleTranscription_outcome (okEnv [0x52, 0x49] [⟨"hello world", 92⟩] ⟨1793692800, 0, 0⟩)
    freshWriter postRequest emptyWorld webmUpload
    [0x1A, 0x45, 0xDF, 0xA3, 1, 2, 3, 4, 5, 6, 7, 8, 9, 10, 11, 12] rfl rfl rfl rfl).2.2
      [0x52, 0x49] _ rfl).2.2 "hello world" _ rfl

/-! ## Timestamps determine the local second -/

/-- Ranges of the year of era and the day of year in `civilFromDays`. -/
theorem doy_bounds (doe yoe : Int) (h0 : 0 ≤ doe) (h1 : doe < 146097)
    (hy : yoe = (doe - doe / 1460 + doe / 36524 - doe / 146096) / 365) :
    0 ≤ yoe ∧ yoe ≤ 399 ∧
    0 ≤ doe - (365 * yoe + yoe / 4 - yoe / 100) ∧ doe - (365 * yoe + yoe / 4 - yoe / 100) ≤ 365 := by
  have hd : doe / 36524 = 0 ∨ doe / 36524 = 1 ∨ doe / 36524 = 2 ∨ doe / 36524 = 3 ∨
      doe / 36524 = 4 := by omega
  rcases hd with hd | hd | hd | hd | hd
  · have hg : yoe / 100 = 0 := by omega
    have hf : yoe / 4 ≤ doe / 1460 := by omega
    omega
  · have hg : yoe / 100 = 1 := by omega
    have hf : yoe / 4 ≤ doe / 1460 := by omega
    omega
  · have hg : yoe / 100 = 2 := by omega
    have hf : yoe / 4 ≤ doe / 1460 := by omega
    omega
  · have hg : yoe / 100 = 3 := by omega
    have hf : yoe / 4 ≤ doe / 1460 := by omega
    omega
  · have ha : doe = 146096 := by omega
    subst ha
    omega

/-- Shape of `civilFromDays`: the intermediate quantities and their ranges. -/
theorem civilFromDays_spec (z : Int) :
    ∃ era yoe doy mp : Int,
      z + 719468 = era * 146097 + (doy + (365 * yoe + yoe / 4 - yoe / 100)) ∧
      0 ≤ yoe ∧ yoe ≤ 399 ∧ 0 ≤ doy ∧ doy ≤ 365 ∧ 0 ≤ mp ∧ mp ≤ 11 ∧
      mp = (5 * doy + 2) / 153 ∧
      civilFromDays z = (if (if mp < 10 then mp + 3 else mp - 9) ≤ 2 then yoe + era * 400 + 1
          else yoe + era * 400,
        if mp < 10 then mp + 3 else mp - 9, doy - (153 * mp + 2) / 5 + 1) := by
  have hb := doy_bounds ((z + 719468) % 146097) _ (by omega) (by omega) rfl
  refine ⟨(z + 719468) / 146097, _, _, _, ?_, hb.1, hb.2.1, hb.2.2.1, hb.2.2.2, ?_, ?_, rfl, rfl⟩
  · omega
  · omega
  · omega

theorem civilFromDays_bounds (z : Int) :
    1 ≤ (civilFromDays z).2.1 ∧ (civilFromDays z).2.1 ≤ 12 ∧
    1 ≤ (civilFromDays z).2.2 ∧ (civilFromDays z).2.2 ≤ 31 := by
  obtain ⟨era, yoe, doy, mp, -, -, -, h1, h2, h3, h4, h5, h⟩ := civilFromDays_spec z
  rw [h]
  simp only
  split_ifs <;> omega

theorem civilFromDays_inj (z1 z2 : Int) (h : civilFromDays z1 = civilFromDays z2) : z1 = z2 := by
  obtain ⟨era1, yoe1, doy1, mp1, e1, a1, b1, c1, d1, f1, g1, i1, k1⟩ := civilFromDays_spec z1
  obtain ⟨era2, yoe2, doy2, mp2, e2, a2, b2, c2, d2, f2, g2, i2, k2⟩ := civilFromDays_spec z2
  rw [k1, k2] at h
  simp only [Prod.mk.injEq] at h
  obtain ⟨hy, hm, hd⟩ := h
  have hmp : mp1 = mp2 := by split_ifs at hm <;> omega
  subst hmp
  have hdoy : doy1 = doy2 := by omega
  subst hdoy
  have hyy : yoe1 + era1 * 400 = yoe2 + era2 * 400 := by split_ifs at hy <;> omega
  have hera : era1 = era2 := by omega
  subst hera
  have hyoe : yoe1 = yoe2 := by omega
  subst hyoe
  omega

theorem digitChar_value (k : Nat) (hk : k < 10) : (Nat.digitChar k).toNat - 48 = k := by
  interval_cases k <;> rfl

theorem digitChar_ne_minus (k : Nat) (hk : k < 10) : Nat.digitChar k ≠ '-' := by
  interval_cases k <;> decide

/-- Reading a decimal digit string back, most significant digit first. -/
theorem toDigitsCore_value (fuel : Nat) : ∀ (n : Nat) (ds : List Char), n < fuel →
    (Nat.toDigitsCore 10 fuel n ds).foldl (fun acc c => acc * 10 + (c.toNat - 48)) 0
      = ds.foldl (fun acc c => acc * 10 + (c.toNat - 48)) n := by
  induction fuel with
  | zero => intro n ds h; omega
  | succ fuel ih =>
    intro n ds h
    simp only [Nat.toDigitsCore]
    split_ifs with h0
    · simp only [List.foldl_cons, Nat.zero_mul, Nat.zero_add]
      rw [digitChar_value _ (Nat.mod_lt _ (by decide))]
      congr 1
      omega
    · rw [ih (n / 10) _ (by omega)]
      simp only [List.foldl_cons]
      rw [digitChar_value _ (Nat.mod_lt _ (by decide))]
      congr 1
      omega

theorem toDigitsCore_no_minus (fuel : Nat) : ∀ (n : Nat) (ds : List Char),
    (∀ c ∈ ds, c ≠ '-') → ∀ c ∈ Nat.toDigitsCore 10 fuel n ds, c ≠ '-' := by
  induction fuel with
  | zero => intro n ds h; simpa [Nat.toDigitsCore] using h
  | succ fuel ih =>
    intro n ds h
    have hcons : ∀ c ∈ Nat.digitChar (n % 10) :: ds, c ≠ '-' := by
      intro c hc
      rcases List.mem_cons.1 hc with rfl | hc
      · exact digitChar_ne_minus _ (Nat.mod_lt _ (by decide))
      · exact h c hc
    simp only [Nat.toDigitsCore]
    split_ifs with h0
    · exact hcons
    · exact ih _ _ hcons

theorem replicate_zero_value (k : Nat) (cs : List Char) :
    (List.replicate k '0' ++ cs).foldl (fun acc c => acc * 10 + (c.toNat - 48)) 0
      = cs.foldl (fun acc c => acc * 10 + (c.toNat - 48)) 0 := by
  induction k with
  | zero => rfl
  | succ k ih => simpa [List.replicate_succ] using ih

theorem appendInt_data (x : Int) (width : Nat) :
    (appendInt x width).data = (if x < 0 then ['-'] else []) ++
      (List.replicate (width - (Nat.toDigits 10 x.natAbs).length) '0'
        ++ Nat.toDigits 10 x.natAbs) := by
  simp only [appendInt, toString, Nat.repr, String.data_append, List.asString, String.length]
  split_ifs <;> simp

/-- The padded decimal rendering determines the number. -/
theorem appendInt_inj (x y : Int) (width : Nat) (h : appendInt x width = appendInt y width) :
    x = y := by
  have hd := congrArg String.data h
  rw [appendInt_data, appendInt_data] at hd
  have hval : ∀ (n k : Nat),
      (List.replicate k '0' ++ Nat.toDigits 10 n).foldl
        (fun acc c => acc * 10 + (c.toNat - 48)) 0 = n := by
    intro n k
    rw [replicate_zero_value, Nat.toDigits, toDigitsCore_value _ _ _ (Nat.lt_succ_self n)]
    rfl
  have hnm : ∀ (n k : Nat), ∀ c ∈ List.replicate k '0' ++ Nat.toDigits 10 n, c ≠ '-' := by
    intro n k c hc
    rcases List.mem_append.1 hc with hc | hc
    · rw [List.eq_of_mem_replicate hc]; decide
    · exact toDigitsCore_no_minus _ _ _ (by simp) c hc
  by_cases hx : x < 0 <;> by_cases hy : y < 0
  · simp only [hx, hy, if_true, List.cons_append, List.nil_append, List.cons.injEq,
      true_and] at hd
    have h1 := congrArg (List.foldl (fun acc c => acc * 10 + (c.toNat - 48)) 0) hd
    rw [hval, hval] at h1
    omega
  · simp only [hx, hy, if_true, if_false, List.cons_append, List.nil_append] at hd
    exact absurd rfl (hnm _ _ '-' (hd ▸ List.mem_cons_self _ _))
  · simp only [hx, hy, if_true, if_false, List.cons_append, List.nil_append] at hd
    exact absurd rfl (hnm _ _ '-' (hd.symm ▸ List.mem_cons_self _ _))
  · simp only [hx, hy, if_false, List.nil_append] at hd
    have h1 := congrArg (List.foldl (fun acc c => acc * 10 + (c.toNat - 48)) 0) hd
    rw [hval, hval] at h1
    omega

theorem appendInt_two_length (x : Int) (h0 : 0 ≤ x) (h1 : x < 100) :
    (appendInt x 2).data.length = 2 := by
  obtain ⟨n, rfl⟩ := Int.eq_ofNat_of_zero_le h0
  have hn : n < 100 := by omega
  interval_cases n <;> rfl

/-- The timestamp string determines the local second: equal strings, equal seconds. -/
theorem formatTimestamp_inj (t1 t2 : Time) (h : formatTimestamp t1 = formatTimestamp t2) :
    t1.sec + t1.offset = t2.sec + t2.offset := by
  have hb1 := civilFromDays_bounds ((t1.sec + t1.offset) / 86400)
  have hb2 := civilFromDays_bounds ((t2.sec + t2.offset) / 86400)
  have hd := congrArg String.data h
  simp only [formatTimestamp] at hd
  rcases hc1 : civilFromDays ((t1.sec + t1.offset) / 86400) with ⟨y1, m1, d1⟩
  rcases hc2 : civilFromDays ((t2.sec + t2.offset) / 86400) with ⟨y2, m2, d2⟩
  rw [hc1] at hb1 hd
  rw [hc2] at hb2 hd
  simp only [String.data_append] at hd hb1 hb2
  have len2 : ∀ x : Int, 0 ≤ x → x < 100 → (appendInt x 2).data.length = 2 :=
    appendInt_two_length
  obtain ⟨hd, hs⟩ := List.append_inj' hd
    ((len2 _ (by omega) (by omega)).trans (len2 _ (by omega) (by omega)).symm)
  obtain ⟨hd, hm⟩ := List.append_inj' hd
    ((len2 _ (by omega) (by omega)).trans (len2 _ (by omega) (by omega)).symm)
  obtain ⟨hd, hh⟩ := List.append_inj' hd
    ((len2 _ (by omega) (by omega)).trans (len2 _ (by omega) (by omega)).symm)
  obtain ⟨hd, -⟩ := List.append_inj' hd rfl
  obtain ⟨hd, hday⟩ := List.append_inj' hd
    ((len2 _ (by omega) (by omega)).trans (len2 _ (by omega) (by omega)).symm)
  obtain ⟨hyear, hmonth⟩ := List.append_inj' hd
    ((len2 _ (by omega) (by omega)).trans (len2 _ (by omega) (by omega)).symm)
  have e1 := appendInt_inj _ _ _ (String.ext hs)
  have e2 := appendInt_inj _ _ _ (String.ext hm)
  have e3 := appendInt_inj _ _ _ (String.ext hh)
  have e4 := appendInt_inj _ _ _ (String.ext hday)
  have e5 := appendInt_inj _ _ _ (String.ext hmonth)
  have e6 := appendInt_inj _ _ _ (String.ext hyear)
  have hdays : (t1.sec + t1.offset) / 86400 = (t2.sec + t2.offset) / 86400 := by
    apply civilFromDays_inj
    rw [hc1, hc2, e4, e5, e6]
  omega

/-! ## Archive keys -/

/-- C10 (as stated) fails: two requests handled half a second apart derive the same file
names; the second archive write replaces the first, and both notes name the same file. -/
theorem archive_key_collision_counterexample :
    (⟨1793692800, 0, 0⟩ : Time) ≠ ⟨1793692800, 500000000, 0⟩ ∧
    ∃ rw1 w1 rw2 w2,
      HandleTranscription (okEnv [0x52, 0x49] [⟨"first note", 92⟩] ⟨1793692800, 0, 0⟩)
        freshWriter postRequest emptyWorld = .val (rw1, w1) ∧
      HandleTranscription (okEnv [0x57] [⟨"second note", 80⟩] ⟨1793692800, 500000000, 0⟩)
        freshWriter postRequest w1 = .val (rw2, w2) ∧
      rw1.body = [.json [
        ("convertedFile", "converted_20261103-080000.wav"),
        ("incomingFile", "incoming_20261103-080000.webm"),
        ("timestamp", "20261103-080000"), ("transcript", "first note")]] ∧
      rw2.body = [.json [
        ("convertedFile", "converted_20261103-080000.wav"),
        ("incomingFile", "incoming_20261103-080000.webm"),
        ("timestamp", "20261103-080000"), ("transcript", "second note")]] ∧
      w1.fs "recordings/converted_20261103-080000.wav" = some [0x52, 0x49] ∧
      w2.fs "recordings/converted_20261103-080000.wav" = some [0x57] ∧
      w2.notes = [("converted_20261103-080000.wav", "first note"),
        ("converted_20261103-080000.wav", "second note")] := by
  refine ⟨by decide, _, _, _, _, rfl, rfl, rfl, rfl, ?_, ?_, rfl⟩ <;> decide

theorem incomingFilename_inj (ts1 ts2 : String) :
    incomingFilename ts1 = incomingFilename ts2 ↔ ts1 = ts2 := by
  constructor
  · intro h
    have h2 := congrArg String.data h
    simp [incomingFilename] at h2
    exact String.ext h2
  · rintro rfl
    rfl

theorem convertedFilename_inj (ts1 ts2 : String) :
    convertedFilename ts1 = convertedFilename ts2 ↔ ts1 = ts2 := by
  constructor
  · intro h
    have h2 := congrArg String.data h
    simp [convertedFilename] at h2
    exact String.ext h2
  · rintro rfl
    rfl

theorem formatTimestamp_eq_iff (t1 t2 : Time) :
    formatTimestamp t1 = formatTimestamp t2 ↔ t1.sec + t1.offset = t2.sec + t2.offset := by
  constructor
  · exact formatTimestamp_inj t1 t2
  · intro h
    simp only [formatTimestamp, h]

/-- C10 (amended): the archive key is the local wall-clock time to the second. For two
requests, whose clocks read `t1` and `t2` when the upload has been read, the names
incoming_<ts>.webm are equal exactly when both are handled in the same local second, and so
are the names converted_<ts>.wav; requests in different local seconds get distinct names,
requests at distinct instants of one second share them. -/
theorem archive_keys {F : Type} (env1 env2 : Env F) (file1 file2 : Upload) (w1 w2 : World) :
    (incomingFilename (requestTimestamp env1 file1 w1)
        = incomingFilename (requestTimestamp env2 file2 w2) ↔
      (env1.now (uploadWorld file1 w1)).sec + (env1.now (uploadWorld file1 w1)).offset
        = (env2.now (uploadWorld file2 w2)).sec + (env2.now (uploadWorld file2 w2)).offset) ∧
    (convertedFilename (requestTimestamp env1 file1 w1)
        = convertedFilename (requestTimestamp env2 file2 w2) ↔
      (env1.now (uploadWorld file1 w1)).sec + (env1.now (uploadWorld file1 w1)).offset
        = (env2.now (uploadWorld file2 w2)).sec + (env2.now (uploadWorld file2 w2)).offset) := by
  constructor
  · rw [incomingFilename_inj]
    exact formatTimestamp_eq_iff _ _
  · rw [convertedFilename_inj]
    exact formatTimestamp_eq_iff _ _

end VoiceToText
